import Mathlib

/-!
Verification of the Intcode virtual machine from `src/2019/intcode/src/lib.rs`.

The Rust code is shallowly embedded: `i64` values become `Int` (the programs
considered never approach the `i64` range, and the source performs no
wrapping arithmetic), Rust's truncating `/` and `%` on `i64` become
`Int.tdiv` / `Int.tmod`, the sparse `HashMap<i64, i64>` memory becomes a
function `Int → Option Int`, fallible operations return `Except`, and the
possibly-diverging fetch/decode/execute loop is run on explicit fuel.
-/

namespace Intcode

/-- The error enum `IntcodeError` from the source.  Payloads that only carry
diagnostic detail irrelevant to control flow (`ParseIntError`, `io::Error`,
channel errors) are dropped; the `InvalidOpCode(i64)` payload is kept. -/
inductive IntcodeError where
  | ProgramParseError
  | InvalidParameterMode
  | InvalidOpCode (raw : Int)
  | IndexOutOfRange
  | EOF
  | IntParse
  | IoError
  | RecvError
  | SendError
  | UserInitiatedExit
deriving DecidableEq, Repr

/-- Embeds `enum ParameterMode`. -/
inductive ParameterMode where
  | Position
  | Immediate
  | Relative
deriving DecidableEq, Repr

/-- Embeds `enum Opcode`. -/
inductive Opcode where
  | Add (m1 m2 m3 : ParameterMode)
  | Multiply (m1 m2 m3 : ParameterMode)
  | Input (m1 : ParameterMode)
  | Output (m1 : ParameterMode)
  | JumpIfTrue (m1 m2 : ParameterMode)
  | JumpIfFalse (m1 m2 : ParameterMode)
  | LessThan (m1 m2 m3 : ParameterMode)
  | Equals (m1 m2 m3 : ParameterMode)
  | AdjustsRelativeBase (m1 : ParameterMode)
  | Exit
deriving DecidableEq, Repr

/-- Embeds `fn parse_parameter_mode` (lib.rs lines 98–105). -/
def parse_parameter_mode (parameter_digit : Int) : Except IntcodeError ParameterMode :=
  if parameter_digit = 0 then .ok .Position
  else if parameter_digit = 1 then .ok .Immediate
  else if parameter_digit = 2 then .ok .Relative
  else .error .InvalidParameterMode

/-- The first half of `fn parse_instruction` (lib.rs lines 108–142): the match
on `instruction % 100` that produces `ret`.  Rust `%` and `/` on `i64`
truncate toward zero, hence `Int.tmod` / `Int.tdiv`. -/
def parse_opcode (instruction : Int) : Except IntcodeError Opcode :=
  if instruction.tmod 100 = 1 then do
    pure (Opcode.Add (← parse_parameter_mode ((instruction.tdiv 100).tmod 10))
      (← parse_parameter_mode ((instruction.tdiv 1000).tmod 10))
      (← parse_parameter_mode ((instruction.tdiv 10000).tmod 10)))
  else if instruction.tmod 100 = 2 then do
    pure (Opcode.Multiply (← parse_parameter_mode ((instruction.tdiv 100).tmod 10))
      (← parse_parameter_mode ((instruction.tdiv 1000).tmod 10))
      (← parse_parameter_mode ((instruction.tdiv 10000).tmod 10)))
  else if instruction.tmod 100 = 3 then do
    pure (Opcode.Input (← parse_parameter_mode ((instruction.tdiv 100).tmod 10)))
  else if instruction.tmod 100 = 4 then do
    pure (Opcode.Output (← parse_parameter_mode ((instruction.tdiv 100).tmod 10)))
  else if instruction.tmod 100 = 5 then do
    pure (Opcode.JumpIfTrue (← parse_parameter_mode ((instruction.tdiv 100).tmod 10))
      (← parse_parameter_mode ((instruction.tdiv 1000).tmod 10)))
  else if instruction.tmod 100 = 6 then do
    pure (Opcode.JumpIfFalse (← parse_parameter_mode ((instruction.tdiv 100).tmod 10))
      (← parse_parameter_mode ((instruction.tdiv 1000).tmod 10)))
  else if instruction.tmod 100 = 7 then do
    pure (Opcode.LessThan (← parse_parameter_mode ((instruction.tdiv 100).tmod 10))
      (← parse_parameter_mode ((instruction.tdiv 1000).tmod 10))
      (← parse_parameter_mode ((instruction.tdiv 10000).tmod 10)))
  else if instruction.tmod 100 = 8 then do
    pure (Opcode.Equals (← parse_parameter_mode ((instruction.tdiv 100).tmod 10))
      (← parse_parameter_mode ((instruction.tdiv 1000).tmod 10))
      (← parse_parameter_mode ((instruction.tdiv 10000).tmod 10)))
  else if instruction.tmod 100 = 9 then do
    pure (Opcode.AdjustsRelativeBase (← parse_parameter_mode ((instruction.tdiv 100).tmod 10)))
  else if instruction.tmod 100 = 99 then
    pure Opcode.Exit
  else
    Except.error (IntcodeError.InvalidOpCode (instruction.tmod 100))

/-- The `parameter_mode_count` table from `fn parse_instruction`
(lib.rs lines 143–154). -/
def parameter_mode_count : Opcode → Nat
  | .Add _ _ _ => 3
  | .Multiply _ _ _ => 3
  | .Input _ => 1
  | .Output _ => 1
  | .JumpIfTrue _ _ => 2
  | .JumpIfFalse _ _ => 2
  | .LessThan _ _ _ => 3
  | .Equals _ _ _ => 3
  | .AdjustsRelativeBase _ => 1
  | .Exit => 0

/-- Embeds `fn parse_instruction` (lib.rs lines 107–161): decode the opcode, then
reject the instruction if it exceeds `10^(2 + parameter_mode_count) - 1`. -/
def parse_instruction (instruction : Int) : Except IntcodeError Opcode :=
  match parse_opcode instruction with
  | .error e => .error e
  | .ok ret =>
    let max_value : Int := 10 ^ (2 + parameter_mode_count ret) - 1
    if instruction > max_value then .error (.InvalidOpCode instruction)
    else .ok ret

/-- The sparse memory `HashMap<i64, i64>`, as a partial map. -/
def Memory : Type := Int → Option Int

/-- Embeds `HashMap::insert`: insert or overwrite. -/
def Memory.insert (m : Memory) (key value : Int) : Memory :=
  fun a => if a = key then some value else m a

/-- Seeding memory from the initial program image (`CpuState::create`,
lib.rs lines 281–292): cell `i` holds the `i`-th program value. -/
def Memory.ofList (mem : List Int) : Memory :=
  fun a => if h : 0 ≤ a ∧ a.toNat < mem.length then some (mem.get ⟨a.toNat, h.2⟩) else none

/-- Embeds `CpuState::load_raw` (lib.rs lines 294–302): negative address is an
error, an unwritten non-negative address reads as 0. -/
def load_raw (m : Memory) (index : Int) : Except IntcodeError Int :=
  if index < 0 then .error .IndexOutOfRange
  else match m index with
    | some num => .ok num
    | none => .ok 0

/-- Embeds `CpuState::store_raw` (lib.rs lines 304–311): negative address is an
error, otherwise insert/overwrite.  Returns the updated memory. -/
def store_raw (m : Memory) (index value : Int) : Except IntcodeError Memory :=
  if index < 0 then .error .IndexOutOfRange
  else .ok (m.insert index value)

/-- The I/O Port capability, `trait CpuIo` (lib.rs lines 231–235),
modelled as a state machine over an explicit environment type `σ`
(the Rust implementations mutate themselves through `&mut self`). -/
structure IoPort (σ : Type) where
  read_number : σ → Except IntcodeError (Int × σ)
  write_number : Int → σ → Except IntcodeError σ
  prompt_for_number : σ → Except IntcodeError σ

/-- Embeds `struct CpuState` (lib.rs lines 267–275): program counter, relative
base, sparse memory, and the state of the attached I/O port. -/
structure CpuState (σ : Type) where
  pc : Int
  relative_base : Int
  mem : Memory
  io : σ

/-- Embeds `CpuState::create` (lib.rs lines 281–292). -/
def CpuState.create (mem : List Int) (io : σ) : CpuState σ :=
  { pc := 0, relative_base := 0, mem := Memory.ofList mem, io := io }

/-- Embeds `CpuState::load_effective_address` (lib.rs lines 313–324). -/
def CpuState.load_effective_address (s : CpuState σ) (pc_rel : Int)
    (mode : ParameterMode) : Except IntcodeError Int :=
  match mode with
  | .Position => load_raw s.mem (s.pc + pc_rel)
  | .Immediate => .ok (s.pc + pc_rel)
  | .Relative => do pure (s.relative_base + (← load_raw s.mem (s.pc + pc_rel)))

/-- Embeds `CpuState::load` (lib.rs lines 326–328). -/
def CpuState.load (s : CpuState σ) (pc_rel : Int) (mode : ParameterMode) :
    Except IntcodeError Int := do
  load_raw s.mem (← s.load_effective_address pc_rel mode)

/-- Embeds `CpuState::store` (lib.rs lines 330–332).  Returns the updated memory. -/
def CpuState.store (s : CpuState σ) (pc_rel : Int) (mode : ParameterMode)
    (value : Int) : Except IntcodeError Memory := do
  store_raw s.mem (← s.load_effective_address pc_rel mode) value

/-- Outcome of one iteration of the `loop` in `CpuState::execute_inner`:
continue at a new state, halt (opcode 99), or fail.  The machine state is
carried even on failure, because the Rust state outlives the error
(`&mut self`). -/
inductive StepRes (σ : Type) where
  | cont (s : CpuState σ)
  | halt (s : CpuState σ)
  | fail (e : IntcodeError) (s : CpuState σ)

/-- Lift a fallible state transformation into a `StepRes`, keeping the
pre-state on failure (no mutation took place before the error). -/
def mkRes (s : CpuState σ) : Except IntcodeError (CpuState σ) → StepRes σ
  | .error e => .fail e s
  | .ok s' => .cont s'

/-- One iteration of the fetch/decode/execute `loop` of
`CpuState::execute_inner` (lib.rs lines 334–408). -/
def step (io : IoPort σ) (s : CpuState σ) : StepRes σ :=
  match load_raw s.mem s.pc with
  | .error e => .fail e s
  | .ok raw =>
  match parse_instruction raw with
  | .error e => .fail e s
  | .ok op =>
  match op with
  | .Add src1_mode src2_mode dst_mode => mkRes s (do
      let mem' ← s.store 3 dst_mode ((← s.load 1 src1_mode) + (← s.load 2 src2_mode))
      pure { s with mem := mem', pc := s.pc + 4 })
  | .Multiply src1_mode src2_mode dst_mode => mkRes s (do
      let mem' ← s.store 3 dst_mode ((← s.load 1 src1_mode) * (← s.load 2 src2_mode))
      pure { s with mem := mem', pc := s.pc + 4 })
  | .Input dst_mode =>
      -- `self.io.prompt_for_number()?` then `self.io.read_number()?`:
      -- the I/O state mutated so far survives a later failure.
      match io.prompt_for_number s.io with
      | .error e => .fail e s
      | .ok io1 =>
      match io.read_number io1 with
      | .error e => .fail e { s with io := io1 }
      | .ok (value, io2) =>
        let s2 := { s with io := io2 }
        match s2.store 1 dst_mode value with
        | .error e => .fail e s2
        | .ok mem' => .cont { s2 with mem := mem', pc := s2.pc + 2 }
  | .Output src_mode => mkRes s (do
      let io' ← io.write_number (← s.load 1 src_mode) s.io
      pure { s with io := io', pc := s.pc + 2 })
  | .JumpIfTrue comparand_mode target_mode => mkRes s (do
      let c ← s.load 1 comparand_mode
      if c ≠ 0 then
        pure { s with pc := ← s.load 2 target_mode }
      else
        pure { s with pc := s.pc + 3 })
  | .JumpIfFalse comparand_mode target_mode => mkRes s (do
      let c ← s.load 1 comparand_mode
      if c = 0 then
        pure { s with pc := ← s.load 2 target_mode }
      else
        pure { s with pc := s.pc + 3 })
  | .LessThan src1_mode src2_mode dst_mode => mkRes s (do
      let v : Int := if (← s.load 1 src1_mode) < (← s.load 2 src2_mode) then 1 else 0
      let mem' ← s.store 3 dst_mode v
      pure { s with mem := mem', pc := s.pc + 4 })
  | .Equals src1_mode src2_mode dst_mode => mkRes s (do
      let v : Int := if (← s.load 1 src1_mode) = (← s.load 2 src2_mode) then 1 else 0
      let mem' ← s.store 3 dst_mode v
      pure { s with mem := mem', pc := s.pc + 4 })
  | .AdjustsRelativeBase mode => mkRes s (do
      pure { s with relative_base := s.relative_base + (← s.load 1 mode), pc := s.pc + 2 })
  | .Exit => .halt s

/-- Result of a bounded run: the Rust loop either returns `Ok(())` (here
`halted`), returns an error, or loops on; `outOfGas` marks fuel exhaustion
(no Rust counterpart). -/
inductive RunResult where
  | halted
  | outOfGas
  | failed (e : IntcodeError)
deriving DecidableEq, Repr

/-- Embeds `CpuState::execute_inner` (lib.rs lines 334–408), run on fuel. -/
def execute_inner (io : IoPort σ) : Nat → CpuState σ → RunResult × CpuState σ
  | 0, s => (.outOfGas, s)
  | fuel + 1, s =>
    match step io s with
    | .halt s' => (.halted, s')
    | .fail e s' => (.failed e, s')
    | .cont s' => execute_inner io fuel s'

/-- Embeds `CpuState::execute` (lib.rs lines 410–416): convert
`Err(UserInitiatedExit)` into success, pass everything else through. -/
def execute (io : IoPort σ) (fuel : Nat) (s : CpuState σ) : RunResult × CpuState σ :=
  let rc := execute_inner io fuel s
  match rc with
  | (.failed .UserInitiatedExit, s') => (.halted, s')
  | _ => rc

/-- The copy-back loop of `execute_with_io` (lib.rs lines 428–430):
`*value = cpu.load_raw(i)?` for each slice index in order.  Returns the
loop's result together with the slice contents: on an error, the entries
already visited keep their copied values and the rest are untouched. -/
def copy_back (m : Memory) : List Int → Int → (Except IntcodeError Unit) × List Int
  | [], _ => (.ok (), [])
  | v :: rest, i =>
    match load_raw m i with
    | .error e => (.error e, v :: rest)
    | .ok w =>
      let (r, tail) := copy_back m rest (i + 1)
      (r, w :: tail)

/-- Embeds `fn execute_with_io` (lib.rs lines 419–433): build a fresh CPU over the
slice, run it, and copy the final memory back into the slice only on
success.  Returns (run result, final slice contents, final I/O state). -/
def execute_with_io (io : IoPort σ) (fuel : Nat) (mem : List Int) (ioInit : σ) :
    RunResult × List Int × σ :=
  let cpu := CpuState.create mem ioInit
  match execute io fuel cpu with
  | (.halted, cpu') =>
    match copy_back cpu'.mem mem 0 with
    | (.ok _, mem') => (.halted, mem', cpu'.io)
    | (.error e, mem') => (.failed e, mem', cpu'.io)
  | (.outOfGas, cpu') => (.outOfGas, mem, cpu'.io)
  | (.failed e, cpu') => (.failed e, mem, cpu'.io)

/-- The I/O port of `execute_no_io` (lib.rs line 485–487): reading from
`std::io::empty()` sees 0 bytes, which `BufReadNumber::read_number` turns
into `EOF`; writes and prompts go to a sink and succeed. -/
def noEnv : IoPort Unit where
  read_number := fun _ => .error .EOF
  write_number := fun _ u => .ok u
  prompt_for_number := fun u => .ok u

/-- An I/O port that collects every written number in order (the observable
behaviour of `ChannelWriteNumber` with an unbounded receiver) and has no
input. -/
def collectEnv : IoPort (List Int) where
  read_number := fun _ => .error .EOF
  write_number := fun num out => .ok (out ++ [num])
  prompt_for_number := fun out => .ok out

/-- An I/O port whose `read_number` always fails with `UserInitiatedExit`
(an I/O port requesting termination, as `CpuState::execute` anticipates). -/
def uieEnv : IoPort Unit where
  read_number := fun _ => .error .UserInitiatedExit
  write_number := fun _ u => .ok u
  prompt_for_number := fun u => .ok u

/-- Embeds `str::trim`'s whitespace test, for the characters that can occur in
console input (Rust trims the full Unicode White_Space set; the ASCII
subset suffices for this model). -/
def is_rust_whitespace (c : Char) : Bool :=
  c = ' ' || c = '\t' || c = '\n' || c = '\r'

/-- Embeds `str::trim`: strip leading and trailing whitespace. -/
def rust_trim (l : List Char) : List Char :=
  ((l.dropWhile is_rust_whitespace).reverse.dropWhile is_rust_whitespace).reverse

/-- One decimal digit of `i64::from_str`. -/
def digit_value (c : Char) : Option Nat :=
  if '0' ≤ c && c ≤ '9' then some (c.toNat - '0'.toNat) else none

/-- The digit run of `i64::from_str`: one or more decimal digits, nothing
else. -/
def parse_digits (l : List Char) : Option Nat :=
  match l with
  | [] => none
  | _ => l.foldl (fun acc c =>
      match acc, digit_value c with
      | some n, some d => some (n * 10 + d)
      | _, _ => none) (some 0)

/-- Embeds `str::parse::<i64>` (`i64::from_str`): an optional sign followed by
one or more decimal digits (the `i64` overflow bound is not modelled —
the programs under consideration stay far below it). -/
def parse_i64 (l : List Char) : Option Int :=
  match l with
  | '-' :: rest => (parse_digits rest).map (fun n => -(n : Int))
  | '+' :: rest => (parse_digits rest).map (fun n => (n : Int))
  | _ => (parse_digits l).map (fun n => (n : Int))

/-- The environment of the blocking console port: pending input lines (as
`BufRead::read_line` would deliver them, one line of characters each),
the text written to the output stream so far, and the `prompt` flag of
`WriteWriteNumber`. -/
structure ConsoleState where
  input : List (List Char)
  output : String
  prompt : Bool
deriving DecidableEq, Repr

/-- Embeds `BufReadNumber::read_number` (lib.rs lines 175–183): a read of 0 bytes
is `EOF`; otherwise the line is trimmed and parsed as a signed integer,
a parse failure being `IntParse`. -/
def console_read_number (st : ConsoleState) : Except IntcodeError (Int × ConsoleState) :=
  match st.input with
  | [] => .error .EOF
  | line :: rest =>
    match parse_i64 (rust_trim line) with
    | some num => .ok (num, { st with input := rest })
    | none => .error .IntParse

/-- Embeds `WriteWriteNumber::write_number` (lib.rs lines 206–209):
`writeln!(output, "{}", num)`. -/
def console_write_number (num : Int) (st : ConsoleState) : Except IntcodeError ConsoleState :=
  .ok { st with output := st.output ++ toString num ++ "\n" }

/-- Embeds `WriteWriteNumber::prompt_for_number` (lib.rs lines 211–217). -/
def console_prompt_for_number (st : ConsoleState) : Except IntcodeError ConsoleState :=
  if st.prompt then .ok { st with output := st.output ++ "Please enter a number: " }
  else .ok st

/-- The blocking console I/O port (`BufReadNumber` + `WriteWriteNumber`
composed by `ComposedCpuIo`, as built by `fn execute`, lib.rs
lines 451–462). -/
def consoleEnv : IoPort ConsoleState where
  read_number := console_read_number
  write_number := console_write_number
  prompt_for_number := console_prompt_for_number

/-- The output-side state of `AsciiCpuState` (lib.rs lines 499–506):
`program_output_bytes` is the pending byte buffer, and `output_lines`
records the lines handed to `AsciiCpuIo::accept_output_line_from_program`
(the source decodes each line's bytes as UTF-8 — panicking on invalid
UTF-8 — before delivery; we record the bytes themselves, and model a
consumer that accepts every line). -/
structure AsciiState where
  program_output_bytes : List Nat
  output_lines : List (List Nat)
deriving DecidableEq, Repr

/-- Embeds `AsciiCpuState::write_number` (lib.rs lines 542–551): a written value
equal to `'\n' as i64 = 10` flushes the byte buffer as one complete line;
any other value is truncated to its low 8 bits (`num as u8`, i.e. the
value taken modulo 2^8) and appended to the buffer. -/
def ascii_write_number (num : Int) (st : AsciiState) : Except IntcodeError AsciiState :=
  if num = 10 then
    .ok { program_output_bytes := [],
          output_lines := st.output_lines ++ [st.program_output_bytes] }
  else
    .ok { st with program_output_bytes := st.program_output_bytes ++ [(num.emod 256).toNat] }

instance instDecidableEqExcept {ε α : Type} [DecidableEq ε] [DecidableEq α] :
    DecidableEq (Except ε α) := fun a b =>
  match a, b with
  | .error e, .error f => decidable_of_iff (e = f) (by simp)
  | .error _, .ok _ => isFalse (by simp)
  | .ok _, .error _ => isFalse (by simp)
  | .ok x, .ok y => decidable_of_iff (x = y) (by simp)

/-- C1: the effective address of the operand at offset `k` from `pc` is:
in Position mode the value loaded from address `pc + k`; in Immediate mode
the address `pc + k` itself; in Relative mode the relative base plus the
value loaded from address `pc + k`. -/
theorem load_effective_address_spec (σ : Type) (s : CpuState σ) (k : Int) :
    s.load_effective_address k .Position = load_raw s.mem (s.pc + k) ∧
    s.load_effective_address k .Immediate = .ok (s.pc + k) ∧
    s.load_effective_address k .Relative
      = (load_raw s.mem (s.pc + k)).map (fun v => s.relative_base + v) := by
  refine ⟨rfl, rfl, ?_⟩
  unfold CpuState.load_effective_address
  cases h : load_raw s.mem (s.pc + k) <;>
    simp [h, Except.map, Bind.bind, Except.bind, Pure.pure, Except.pure]

/-- C2: running the engine to halt transforms the three sample programs
made of opcodes 1, 2 and 99 (with parameter modes) exactly as specified:
`1,0,0,0,99 → 2,0,0,0,99`, `2,4,4,5,99,0 → 2,4,4,5,99,9801`, and
`1002,4,3,4,33 → 1002,4,3,4,99`. -/
theorem add_multiply_halt_programs :
    execute_with_io noEnv 100 [1, 0, 0, 0, 99] () = (.halted, [2, 0, 0, 0, 99], ()) ∧
    execute_with_io noEnv 100 [2, 4, 4, 5, 99, 0] () = (.halted, [2, 4, 4, 5, 99, 9801], ()) ∧
    execute_with_io noEnv 100 [1002, 4, 3, 4, 33] () = (.halted, [1002, 4, 3, 4, 99], ()) := by
  decide

/-- C3: `load_raw` returns `IndexOutOfRange` exactly on negative addresses
and reads 0 from unwritten non-negative addresses; `store_raw` returns
`IndexOutOfRange` exactly on negative addresses, and otherwise a subsequent
load of the stored address yields the stored value. -/
theorem load_store_raw_spec (m : Memory) (a v : Int) :
    (load_raw m a = .error .IndexOutOfRange ↔ a < 0) ∧
    (0 ≤ a → m a = none → load_raw m a = .ok 0) ∧
    (store_raw m a v = .error .IndexOutOfRange ↔ a < 0) ∧
    (∀ m', store_raw m a v = .ok m' → load_raw m' a = .ok v) := by
  by_cases h : a < 0
  · refine ⟨by simp [load_raw, h], fun h0 _ => absurd h (not_lt.mpr h0),
      by simp [store_raw, h], fun m' hm' => ?_⟩
    simp [store_raw, h] at hm'
  · refine ⟨?_, fun _ hnone => by simp [load_raw, h, hnone], by simp [store_raw, h],
      fun m' hm' => ?_⟩
    · simp only [load_raw, if_neg h]
      cases m a <;> simp <;> omega
    · simp only [store_raw, if_neg h, Except.ok.injEq] at hm'
      subst hm'
      simp [load_raw, h, Memory.insert]

/-- C3 witness: concrete instances of each conjunct. -/
theorem load_store_raw_spec_witness :
    (load_raw (fun _ => none) (-1) = .error .IndexOutOfRange) ∧
    (load_raw (fun _ => none) 3 = .ok 0) ∧
    (store_raw (fun _ => none) (-1) 7 = .error .IndexOutOfRange) ∧
    (load_raw (Memory.insert (fun _ => none) 3 7) 3 = .ok 7) := by
  refine ⟨(load_store_raw_spec (fun _ => none) (-1) 7).1.mpr (by decide),
    (load_store_raw_spec (fun _ => none) 3 7).2.1 (by decide) rfl,
    (load_store_raw_spec (fun _ => none) (-1) 7).2.2.1.mpr (by decide),
    (load_store_raw_spec (fun _ => none) 3 7).2.2.2 (Memory.insert (fun _ => none) 3 7) rfl⟩

/-- C4: when the low two digits of `raw` select a recognized opcode and all
its mode digits are valid (i.e. `parse_opcode raw` succeeds with some
opcode `op`), the decoder rejects the instruction if and only if `raw`
exceeds `10 ^ (2 + operand count) - 1`. -/
theorem parse_instruction_max_value (raw : Int) (op : Opcode)
    (h : parse_opcode raw = .ok op) :
    ((parse_instruction raw).isOk = false ↔
      raw > 10 ^ (2 + parameter_mode_count op) - 1) := by
  unfold parse_instruction
  rw [h]
  by_cases hgt : raw > 10 ^ (2 + parameter_mode_count op) - 1 <;>
    simp [hgt, Except.isOk, Except.toBool]

/-- C4 witness: raw value 199 encodes Halt (0 operands) in its low digits
but exceeds 99, so it is rejected. -/
theorem parse_instruction_max_value_witness :
    parse_opcode 199 = .ok .Exit ∧ (parse_instruction 199).isOk = false :=
  ⟨rfl, (parse_instruction_max_value 199 .Exit rfl).mpr (by decide)⟩

/-- C5 counterexample: for raw value 150 the low two digits (50) are not a
recognized opcode, and the decoder returns `InvalidOpCode 50` — the low
two digits — not `InvalidOpCode 150` as the claim states. -/
theorem invalid_opcode_payload_cex :
    (150 : Int).tmod 100 = 50 ∧
    parse_instruction 150 = .error (.InvalidOpCode 50) ∧
    parse_instruction 150 ≠ .error (.InvalidOpCode 150) := by
  decide

/-- C5 (amended): when the low two digits of `raw` are not one of the
recognized opcodes, decoding returns `InvalidOpCode` carrying the low two
digits `raw.tmod 100` (Rust `raw % 100`) as its payload. -/
theorem invalid_opcode_payload (raw : Int)
    (h : ∀ c ∈ ([1, 2, 3, 4, 5, 6, 7, 8, 9, 99] : List Int), raw.tmod 100 ≠ c) :
    parse_instruction raw = .error (.InvalidOpCode (raw.tmod 100)) := by
  have h1 := h 1 (by simp)
  have h2 := h 2 (by simp)
  have h3 := h 3 (by simp)
  have h4 := h 4 (by simp)
  have h5 := h 5 (by simp)
  have h6 := h 6 (by simp)
  have h7 := h 7 (by simp)
  have h8 := h 8 (by simp)
  have h9 := h 9 (by simp)
  have h99 := h 99 (by simp)
  simp [parse_instruction, parse_opcode, h1, h2, h3, h4, h5, h6, h7, h8, h9, h99]

/-- C5 (amended) witness: raw value 150 decodes to `InvalidOpCode 50`. -/
theorem invalid_opcode_payload_witness :
    parse_instruction 150 = .error (.InvalidOpCode ((150 : Int).tmod 100)) :=
  invalid_opcode_payload 150 (by decide)

/-- C6: the run loop converts `UserInitiatedExit` into a successful halt;
every other error is returned to the caller unchanged, and an error in a
cycle ends the run in that cycle (a non-erroring, non-halting cycle simply
continues — nothing is retried). -/
theorem execute_error_policy (σ : Type) (io : IoPort σ) (fuel : Nat) (s s' : CpuState σ) :
    (execute_inner io fuel s = (.failed .UserInitiatedExit, s') →
      execute io fuel s = (.halted, s')) ∧
    (∀ e, e ≠ IntcodeError.UserInitiatedExit →
      execute_inner io fuel s = (.failed e, s') →
      execute io fuel s = (.failed e, s')) ∧
    (∀ e, step io s = .fail e s' → execute_inner io (fuel + 1) s = (.failed e, s')) ∧
    (step io s = .halt s' → execute_inner io (fuel + 1) s = (.halted, s')) ∧
    (step io s = .cont s' → execute_inner io (fuel + 1) s = execute_inner io fuel s') := by
  refine ⟨fun h => by simp [execute, h], fun e he h => ?_,
    fun e h => by simp [execute_inner, h], fun h => by simp [execute_inner, h],
    fun h => by simp [execute_inner, h]⟩
  unfold execute
  rw [h]
  cases e <;> first | rfl | exact absurd rfl he

/-- C6 witness: with an I/O port whose read fails with `UserInitiatedExit`,
the program `3,0,99` halts cleanly; with one whose read fails with `EOF`,
the same program fails with `EOF` in the first cycle and the error reaches
the caller unchanged. -/
theorem execute_error_policy_witness :
    execute uieEnv 10 (CpuState.create [3, 0, 99] ()) =
      (.halted, CpuState.create [3, 0, 99] ()) ∧
    execute noEnv 10 (CpuState.create [3, 0, 99] ()) =
      (.failed .EOF, CpuState.create [3, 0, 99] ()) ∧
    execute_inner noEnv 10 (CpuState.create [3, 0, 99] ()) =
      (.failed .EOF, CpuState.create [3, 0, 99] ()) ∧
    execute_inner noEnv 1 (CpuState.create [99] ()) =
      (.halted, CpuState.create [99] ()) ∧
    execute_inner noEnv 3 (CpuState.create [1105, 1, 4, 0, 99] ()) =
      execute_inner noEnv 2
        { pc := 4, relative_base := 0, mem := Memory.ofList [1105, 1, 4, 0, 99], io := () } :=
  ⟨(execute_error_policy Unit uieEnv 10 (CpuState.create [3, 0, 99] ())
      (CpuState.create [3, 0, 99] ())).1 rfl,
    (execute_error_policy Unit noEnv 10 (CpuState.create [3, 0, 99] ())
      (CpuState.create [3, 0, 99] ())).2.1 .EOF (by decide) rfl,
    (execute_error_policy Unit noEnv 9 (CpuState.create [3, 0, 99] ())
      (CpuState.create [3, 0, 99] ())).2.2.1 .EOF rfl,
    (execute_error_policy Unit noEnv 0 (CpuState.create [99] ())
      (CpuState.create [99] ())).2.2.2.1 rfl,
    (execute_error_policy Unit noEnv 2 (CpuState.create [1105, 1, 4, 0, 99] ())
      { pc := 4, relative_base := 0, mem := Memory.ofList [1105, 1, 4, 0, 99],
        io := () }).2.2.2.2 rfl⟩

/-- C8: the quine program outputs exactly its own 16 source values, one per
output operation, and halts successfully (its first 16 memory cells are
also unchanged). -/
theorem quine_outputs_itself :
    execute_with_io collectEnv 300
        [109, 1, 204, -1, 1001, 100, 1, 100, 1008, 100, 16, 101, 1006, 101, 0, 99] []
      = (.halted,
        [109, 1, 204, -1, 1001, 100, 1, 100, 1008, 100, 16, 101, 1006, 101, 0, 99],
        [109, 1, 204, -1, 1001, 100, 1, 100, 1008, 100, 16, 101, 1006, 101, 0, 99]) := by
  decide

/-- The copy-back loop never fails when started at a non-negative index:
every address it reads is non-negative. -/
theorem copy_back_ok (m : Memory) (l : List Int) : ∀ i : Int, 0 ≤ i →
    (copy_back m l i).1 = .ok () := by
  induction l with
  | nil => intro i _; rfl
  | cons v rest ih =>
    intro i hi
    have hneg : ¬ i < 0 := not_lt.mpr hi
    simp only [copy_back, load_raw, if_neg hneg]
    cases m i <;> simp [ih (i + 1) (by omega)]

/-- C9: if `execute_with_io` returns an error, the caller's memory slice is
exactly as it was on entry — the final VM memory is copied back only on a
successful run. -/
theorem execute_with_io_error_leaves_mem (σ : Type) (io : IoPort σ) (fuel : Nat)
    (mem : List Int) (ioInit : σ) (e : IntcodeError)
    (h : (execute_with_io io fuel mem ioInit).1 = .failed e) :
    (execute_with_io io fuel mem ioInit).2.1 = mem := by
  cases hx : execute io fuel (CpuState.create mem ioInit) with
  | mk r cpu' =>
    cases r with
    | halted =>
      have hcb := copy_back_ok cpu'.mem mem 0 (by omega)
      cases hcb2 : copy_back cpu'.mem mem 0 with
      | mk rr mem' =>
        rw [hcb2] at hcb
        simp only at hcb
        subst hcb
        simp only [execute_with_io, hx, hcb2] at h
        exact absurd h (by simp)
    | outOfGas =>
      simp only [execute_with_io, hx] at h
      exact absurd h (by simp)
    | failed e2 =>
      simp only [execute_with_io, hx]

/-- C9 witness: the program `5` jumps to address 5 and then fetches the
instruction 0, an invalid opcode; the run fails and the slice is returned
unchanged. -/
theorem execute_with_io_error_leaves_mem_witness :
    (execute_with_io noEnv 10 [5] ()).2.1 = [5] :=
  execute_with_io_error_leaves_mem Unit noEnv 10 [5] () (.InvalidOpCode 0) rfl

/-- C10: the ASCII line adapter flushes its accumulated byte buffer as one
complete line when the written value is 10 and empties the buffer;
any other value is truncated to its low 8 bits (value mod 2^8) and
appended — values outside 0..=255 are truncated, never rejected. -/
theorem ascii_write_number_spec (st : AsciiState) (v : Int) :
    (v = 10 → ascii_write_number v st =
      .ok { program_output_bytes := [],
            output_lines := st.output_lines ++ [st.program_output_bytes] }) ∧
    (v ≠ 10 → ascii_write_number v st =
      .ok { st with
            program_output_bytes := st.program_output_bytes ++ [(v.emod 256).toNat] }) := by
  constructor <;> intro h <;> simp [ascii_write_number, h]

/-- C10 witness: writing 10 flushes the buffered bytes `[72, 73]` as a
line; writing 266 (= 10 mod 256, but not the newline value itself) appends
the truncated byte 10 instead of flushing. -/
theorem ascii_write_number_spec_witness :
    ascii_write_number 10 ⟨[72, 73], []⟩ = .ok ⟨[], [[72, 73]]⟩ ∧
    ascii_write_number 266 ⟨[], []⟩ = .ok ⟨[10], []⟩ :=
  ⟨(ascii_write_number_spec ⟨[72, 73], []⟩ 10).1 rfl,
    (ascii_write_number_spec ⟨[], []⟩ 266).2 (by decide)⟩

/-- Embeds `CpuState::store` never reads the I/O state: effective-address
resolution and the memory write depend only on `pc`, `relative_base` and
`mem`. -/
theorem store_io_irrel (s : CpuState σ) (x : σ) (k : Int) (pm : ParameterMode) (v : Int) :
    CpuState.store { s with io := x } k pm v = s.store k pm v := rfl

/-- C7: under the blocking console I/O port with prompting enabled, an
Input opcode first appends the literal prompt `"Please enter a number: "`
to the output stream and then consumes one input line, parsed (after
trimming) as a signed integer — reading at end of input fails with the
terminal error `EOF`; an Output opcode appends the decimal rendering of
the value followed by a newline to the output stream. -/
theorem console_io_protocol (s : CpuState ConsoleState) (raw : Int)
    (hload : load_raw s.mem s.pc = .ok raw) :
    (∀ dm line rest n mem',
      parse_instruction raw = .ok (.Input dm) →
      s.io.prompt = true →
      s.io.input = line :: rest →
      parse_i64 (rust_trim line) = some n →
      s.store 1 dm n = .ok mem' →
      step consoleEnv s = .cont
        { pc := s.pc + 2, relative_base := s.relative_base, mem := mem',
          io := { input := rest,
                  output := s.io.output ++ "Please enter a number: ",
                  prompt := true } }) ∧
    (∀ dm,
      parse_instruction raw = .ok (.Input dm) →
      s.io.prompt = true →
      s.io.input = [] →
      step consoleEnv s = .fail .EOF
        { s with io := { s.io with output := s.io.output ++ "Please enter a number: " } }) ∧
    (∀ sm v,
      parse_instruction raw = .ok (.Output sm) →
      s.load 1 sm = .ok v →
      step consoleEnv s = .cont
        { s with io := { s.io with output := s.io.output ++ toString v ++ "\n" },
                 pc := s.pc + 2 }) := by
  refine ⟨fun dm line rest n mem' hparse hp hin hn hstore => ?_,
    fun dm hparse hp hin => ?_, fun sm v hparse hv => ?_⟩
  · have hstore2 :
        CpuState.store
          { s with
            io := (ConsoleState.mk rest (s.io.output ++ "Please enter a number: ") true) }
          1 dm n = .ok mem' := hstore
    simp only [step, hload, hparse, consoleEnv, console_prompt_for_number, hp, if_true,
      console_read_number, hin, hn, hstore2]
  · simp only [step, hload, hparse, consoleEnv, console_prompt_for_number, hp, if_true,
      console_read_number, hin]
  · simp only [step, hload, hparse, mkRes]
    simp [hv, consoleEnv, console_write_number, Bind.bind, Except.bind, Pure.pure, Except.pure]

/-- C7 witness: the program `3,0,99` reading the line `"42"` prompts and
stores 42; the same program with no input fails with `EOF` after
prompting; the program `4,2,99` writes `"99\n"`. -/
theorem console_io_protocol_witness :
    (step consoleEnv (CpuState.create [3, 0, 99] ⟨[['4', '2']], "", true⟩) = .cont
      { pc := 2, relative_base := 0,
        mem := Memory.insert (Memory.ofList [3, 0, 99]) 0 42,
        io := { input := [], output := "Please enter a number: ", prompt := true } }) ∧
    (step consoleEnv (CpuState.create [3, 0, 99] ⟨[], "", true⟩) = .fail .EOF
      { pc := 0, relative_base := 0, mem := Memory.ofList [3, 0, 99],
        io := { input := [], output := "Please enter a number: ", prompt := true } }) ∧
    (step consoleEnv (CpuState.create [4, 2, 99] ⟨[], "", true⟩) = .cont
      { pc := 2, relative_base := 0, mem := Memory.ofList [4, 2, 99],
        io := { input := [], output := "99\n", prompt := true } }) := by
  refine ⟨?_, ?_, ?_⟩
  · exact (console_io_protocol (CpuState.create [3, 0, 99] ⟨[['4', '2']], "", true⟩) 3 rfl).1
      .Position ['4', '2'] [] 42 (Memory.insert (Memory.ofList [3, 0, 99]) 0 42)
      rfl rfl rfl (by decide) rfl
  · exact (console_io_protocol (CpuState.create [3, 0, 99] ⟨[], "", true⟩) 3 rfl).2.1
      .Position rfl rfl rfl
  · exact (console_io_protocol (CpuState.create [4, 2, 99] ⟨[], "", true⟩) 4 rfl).2.2
      .Position 99 rfl rfl

end Intcode
